import Mathlib

/-!
Verification of the pingpong (double) buffer.

The state and the operations below are a shallow embedding of the Rust
crate: the two fixed slots `buffer_a`/`buffer_b` of capacity `N` become
lists whose length-`N` well-formedness is tracked by `Wf`, field names and
control flow follow the source.  Operations that mutate `self` take the
state and return it together with the result; `append` returns the
post-state even when it reports an error, since the source commits its
partial copy before failing.
-/

namespace Pingpong

/-- Flag to indicate active buffer. -/
inductive Buffer where
  | A
  | B
deriving DecidableEq, Repr

/-- Switch active buffer. -/
def Buffer.toggle : Buffer → Buffer
  | .A => .B
  | .B => .A

/-- Enum to express if buffer is full or not. -/
inductive BufferCapacity where
  | Full
  | NotFull
deriving DecidableEq, Repr

/-- Errors used in this crate. -/
inductive PingpongBufferError where
  | Overflow
  | ReserveFull
deriving DecidableEq, Repr

/-- The pingpong buffer state: two internal slots, the write cursor into the
active slot, the active-slot selector, and the reserve-full flag. -/
structure PingpongBuffer (N : Nat) (T : Type) where
  buffer_a : List T
  buffer_b : List T
  active_index : Nat
  active_buffer : Buffer
  reserve_capacity : BufferCapacity
deriving DecidableEq, Repr

variable {N : Nat} {T : Type}

/-- `copy_from_slice` of `src` into `buff` starting at offset `i`
(the source always calls it with `i + src.length ≤ buff.length`). -/
def writeAt (buff : List T) (i : Nat) (src : List T) : List T :=
  buff.take i ++ src ++ buff.drop (i + src.length)

namespace PingpongBuffer

/-- `PingpongBuffer::default()` / `new()`: zeroed slots, cursor 0, slot A
active, reserve not full. -/
def new (N : Nat) (T : Type) [Inhabited T] : PingpongBuffer N T :=
  { buffer_a := List.replicate N default
    buffer_b := List.replicate N default
    active_index := 0
    active_buffer := Buffer.A
    reserve_capacity := BufferCapacity.NotFull }

/-- The slot currently accepting writes (the `match self.active_buffer`
borrow at the top of `append`/`flush`). -/
def getActive (s : PingpongBuffer N T) : List T :=
  match s.active_buffer with
  | Buffer.A => s.buffer_a
  | Buffer.B => s.buffer_b

/-- Store an updated active slot back into the state. -/
def setActive (s : PingpongBuffer N T) (buff : List T) : PingpongBuffer N T :=
  match s.active_buffer with
  | Buffer.A => { s with buffer_a := buff }
  | Buffer.B => { s with buffer_b := buff }

/-- The non-active (reserve) slot, as read by `read`. -/
def getReserve (s : PingpongBuffer N T) : List T :=
  match s.active_buffer with
  | Buffer.A => s.buffer_b
  | Buffer.B => s.buffer_a

/-- Is the actively written buffer empty. -/
def is_empty (s : PingpongBuffer N T) : Bool :=
  s.active_index == 0

/-- Is the actively written buffer more than half full. -/
def is_half_full (s : PingpongBuffer N T) : Bool :=
  decide (N / 2 ≤ s.active_index)

/-- Is the reserve buffer full and ready for reading. -/
def is_reserve_full (s : PingpongBuffer N T) : Bool :=
  s.reserve_capacity == BufferCapacity.Full

/-- Clears the pingpong buffer back into its default state. -/
def clear (_s : PingpongBuffer N T) [Inhabited T] : PingpongBuffer N T :=
  { buffer_a := List.replicate N default
    buffer_b := List.replicate N default
    active_index := 0
    active_buffer := Buffer.A
    reserve_capacity := BufferCapacity.NotFull }

/-- Read out the remaining data from the active buffer: a zeroed length-`N`
snapshot whose first `active_index` positions are copied from the active
slot, paired with that count; the cursor is reset to 0. -/
def flush (s : PingpongBuffer N T) [Inhabited T] :
    (List T × Nat) × PingpongBuffer N T :=
  let buff := s.getActive
  let remainder := s.active_index
  let data := writeAt (List.replicate N (default : T)) 0 (buff.take remainder)
  ((data, remainder), { s with active_index := 0 })

/-- Read the data from the reserve buffer: `none` unless the reserve is
full; otherwise return the reserve slot and mark it not full. -/
def read (s : PingpongBuffer N T) : Option (List T) × PingpongBuffer N T :=
  if s.reserve_capacity = BufferCapacity.Full then
    let s' := { s with reserve_capacity := BufferCapacity.NotFull }
    match s.active_buffer with
    | Buffer.A => (some s.buffer_b, s')
    | Buffer.B => (some s.buffer_a, s')
  else
    (none, s)

/-- The position within the active buffer. -/
def position (s : PingpongBuffer N T) : Nat :=
  s.active_index

/-- Append data to the active buffer; when the active slot fills to `N` the
slots are swapped (unless the reserve is still unread) and any remainder is
written into the new active slot (unless it exceeds `N`).  Returns the
result together with the post-state — the partial copy is committed even on
error, exactly as in the source. -/
def append (s : PingpongBuffer N T) (data : List T) :
    Except PingpongBufferError BufferCapacity × PingpongBuffer N T :=
  let buff := s.getActive
  let capacity := buff.length - s.active_index
  let transferred := min data.length capacity
  let s1 := s.setActive (writeAt buff s.active_index (data.take transferred))
  let s2 := { s1 with active_index := s1.active_index + transferred }
  if s2.active_index = buff.length then
    if s2.reserve_capacity = BufferCapacity.Full then
      (Except.error PingpongBufferError.ReserveFull, s2)
    else
      let s3 := { s2 with
        reserve_capacity := BufferCapacity.Full
        active_index := 0
        active_buffer := s2.active_buffer.toggle }
      if transferred ≠ data.length then
        let buff2 := s3.getActive
        let remainder := data.length - transferred
        if remainder > N then
          (Except.error PingpongBufferError.Overflow, s3)
        else
          let s4 := s3.setActive (writeAt buff2 0 (data.drop transferred))
          let s5 := { s4 with active_index := s4.active_index + remainder }
          (Except.ok BufferCapacity.Full, s5)
      else
        (Except.ok BufferCapacity.Full, s3)
  else
    (Except.ok BufferCapacity.NotFull, s2)

/-- Push an element to the active buffer: `append(&[element])`. -/
def push (s : PingpongBuffer N T) (element : T) :
    Except PingpongBufferError BufferCapacity × PingpongBuffer N T :=
  s.append [element]

/-- Well-formedness: both slots have length `N` and the cursor is in
bounds — what the Rust types `[T; N]` / bounds checks guarantee. -/
def Wf (s : PingpongBuffer N T) : Prop :=
  s.buffer_a.length = N ∧ s.buffer_b.length = N ∧ s.active_index ≤ N

instance (s : PingpongBuffer N T) : Decidable s.Wf :=
  inferInstanceAs (Decidable
    (s.buffer_a.length = N ∧ s.buffer_b.length = N ∧ s.active_index ≤ N))

/-- Store an updated reserve slot back into the state (proof-side helper
for stating what `append` wrote into the slot it just swapped away). -/
def setReserve (s : PingpongBuffer N T) (buff : List T) : PingpongBuffer N T :=
  match s.active_buffer with
  | Buffer.A => { s with buffer_b := buff }
  | Buffer.B => { s with buffer_a := buff }

end PingpongBuffer

/-- One call of the public mutating API, for reachability statements. -/
inductive Op (T : Type) where
  | push (element : T)
  | append (data : List T)
  | read
  | flush
  | clear

/-- Apply one API call to the state, discarding the returned value. -/
def step [Inhabited T] (s : PingpongBuffer N T) : Op T → PingpongBuffer N T
  | .push e => (s.push e).2
  | .append d => (s.append d).2
  | .read => (s.read).2
  | .flush => (s.flush).2
  | .clear => s.clear

/-- Run a sequence of API calls from a state. -/
def run [Inhabited T] (s : PingpongBuffer N T) (ops : List (Op T)) :
    PingpongBuffer N T :=
  ops.foldl step s

/-! Basic lemmas about the embedding. -/

theorem writeAt_length (buff src : List T) (i : Nat)
    (h : i + src.length ≤ buff.length) :
    (writeAt buff i src).length = buff.length := by
  simp [writeAt]
  omega

theorem writeAt_nil (buff : List T) (i : Nat) :
    writeAt buff i [] = buff := by
  simp [writeAt]

theorem writeAt_zero (buff src : List T) :
    writeAt buff 0 src = src ++ buff.drop src.length := by
  simp [writeAt]

theorem setActive_getActive (s : PingpongBuffer N T) :
    s.setActive s.getActive = s := by
  cases s with | mk a b w ab rc => cases ab <;> rfl

theorem getActive_setActive (s : PingpongBuffer N T) (buff : List T) :
    (s.setActive buff).getActive = buff := by
  cases s with | mk a b w ab rc => cases ab <;> rfl

theorem new_wf [Inhabited T] : (PingpongBuffer.new N T).Wf := by
  simp [PingpongBuffer.new, PingpongBuffer.Wf]

theorem clear_wf [Inhabited T] (s : PingpongBuffer N T) : s.clear.Wf := by
  simp [PingpongBuffer.clear, PingpongBuffer.Wf]

theorem read_wf (s : PingpongBuffer N T) (h : s.Wf) : s.read.2.Wf := by
  obtain ⟨ha, hb, hw⟩ := h
  cases s with | mk a b w ab rc =>
  cases ab <;> cases rc <;>
    simp_all [PingpongBuffer.read, PingpongBuffer.Wf]

theorem flush_wf [Inhabited T] (s : PingpongBuffer N T) (h : s.Wf) :
    s.flush.2.Wf := by
  obtain ⟨ha, hb, hw⟩ := h
  cases s with | mk a b w ab rc =>
  simp_all [PingpongBuffer.flush, PingpongBuffer.Wf]

theorem append_wf (s : PingpongBuffer N T) (data : List T) (h : s.Wf) :
    (s.append data).2.Wf := by
  obtain ⟨ha, hb, hw⟩ := h
  cases s with | mk a b w ab rc =>
  cases ab <;>
    simp_all only [PingpongBuffer.append, PingpongBuffer.getActive,
      PingpongBuffer.setActive, PingpongBuffer.Wf, Buffer.toggle] <;>
    split_ifs <;>
    (refine ⟨?_, ?_, ?_⟩ <;> simp [writeAt] <;> omega)

/-! Characterization of `append`, one lemma per control path. -/

/-- Path 1: the input fits strictly below the top of the active slot — no
swap, `Ok(NotFull)`, the data is written at the cursor. -/
theorem append_no_swap (s : PingpongBuffer N T) (data : List T) (h : s.Wf)
    (hL : data.length < N - s.active_index) :
    s.append data =
      (Except.ok BufferCapacity.NotFull,
        { s.setActive (writeAt s.getActive s.active_index data) with
            active_index := s.active_index + data.length }) := by
  cases s with | mk a b w ab rc =>
  obtain ⟨ha, hb, hw⟩ := h
  dsimp only at *
  have hmin : min data.length (N - w) = data.length := by omega
  cases ab <;>
    simp_all only [PingpongBuffer.append, PingpongBuffer.getActive,
      PingpongBuffer.setActive, hmin, List.take_length] <;>
    rw [if_neg (by omega)]

/-- Path 2: the active slot fills up but the reserve is still unread —
`Err(ReserveFull)`, with the partial copy committed and the cursor at `N`. -/
theorem append_reserve_full (s : PingpongBuffer N T) (data : List T)
    (h : s.Wf) (hrc : s.reserve_capacity = BufferCapacity.Full)
    (hL : N - s.active_index ≤ data.length) :
    s.append data =
      (Except.error PingpongBufferError.ReserveFull,
        { s.setActive
            (writeAt s.getActive s.active_index
              (data.take (N - s.active_index))) with
            active_index := N }) := by
  cases s with | mk a b w ab rc =>
  obtain ⟨ha, hb, hw⟩ := h
  dsimp only at *
  have hmin : min data.length (N - w) = N - w := by omega
  have hN : w + (N - w) = N := by omega
  cases ab <;>
    simp_all only [PingpongBuffer.append, PingpongBuffer.getActive,
      PingpongBuffer.setActive, hmin, hN] <;>
    simp

/-- Path 3: the active slot fills up, the reserve has been read, and the
remainder fits — swap, `Ok(Full)`, the filled slot becomes the reserve and
the remainder is written at the start of the new active slot. -/
theorem append_ok_swap (s : PingpongBuffer N T) (data : List T) (h : s.Wf)
    (hrc : s.reserve_capacity = BufferCapacity.NotFull)
    (hlo : N - s.active_index ≤ data.length)
    (hhi : data.length ≤ 2 * N - s.active_index) :
    s.append data =
      (Except.ok BufferCapacity.Full,
        { (s.setActive
            (writeAt s.getActive s.active_index
              (data.take (N - s.active_index)))).setReserve
            (writeAt s.getReserve 0
              (data.drop (N - s.active_index))) with
            active_index := data.length - (N - s.active_index)
            active_buffer := s.active_buffer.toggle
            reserve_capacity := BufferCapacity.Full }) := by
  cases s with | mk a b w ab rc =>
  obtain ⟨ha, hb, hw⟩ := h
  dsimp only at *
  have hmin : min data.length (N - w) = N - w := by omega
  cases ab <;>
    simp only [PingpongBuffer.append, PingpongBuffer.getActive,
      PingpongBuffer.setActive, PingpongBuffer.setReserve,
      PingpongBuffer.getReserve, Buffer.toggle] <;>
    split_ifs with h1 h2 h3 h4 <;>
    first
      | (exfalso; omega)
      | (simp [hrc] at h2; done)
      | (simp only [ha, hb, hmin, Nat.zero_add]; done)
      | (have hE : N - w = data.length := by omega
         simp only [ha, hb, hmin, hE, List.drop_length, writeAt_nil,
           Nat.sub_self, Nat.min_self])

/-- Path 4: the active slot fills up, the reserve has been read, but the
remainder exceeds `N` — the swap is committed, then `Err(Overflow)` with
the new active slot untouched. -/
theorem append_overflow (s : PingpongBuffer N T) (data : List T) (h : s.Wf)
    (hrc : s.reserve_capacity = BufferCapacity.NotFull)
    (hL : 2 * N - s.active_index < data.length) :
    s.append data =
      (Except.error PingpongBufferError.Overflow,
        { s.setActive
            (writeAt s.getActive s.active_index
              (data.take (N - s.active_index))) with
            active_index := 0
            active_buffer := s.active_buffer.toggle
            reserve_capacity := BufferCapacity.Full }) := by
  cases s with | mk a b w ab rc =>
  obtain ⟨ha, hb, hw⟩ := h
  dsimp only at *
  have hmin : min data.length (N - w) = N - w := by omega
  cases ab <;>
    simp only [PingpongBuffer.append, PingpongBuffer.getActive,
      PingpongBuffer.setActive, Buffer.toggle] <;>
    split_ifs with h1 h2 h3 h4 <;>
    first
      | (exfalso; omega)
      | (simp [hrc] at h2; done)
      | simp only [ha, hb, hmin]

/-- `append` reports `Overflow` exactly when the reserve is free to be
swapped in and the input exceeds the remaining two-slot capacity
`2N - writeIndex`. -/
theorem append_overflow_iff (s : PingpongBuffer N T) (data : List T)
    (h : s.Wf) :
    (s.append data).1 = Except.error PingpongBufferError.Overflow ↔
      (s.reserve_capacity = BufferCapacity.NotFull ∧
        2 * N - s.active_index < data.length) := by
  rcases Nat.lt_or_ge data.length (N - s.active_index) with hc | hc
  · rw [append_no_swap s data h hc]
    simp only [Except.ok.injEq, reduceCtorEq, false_iff, not_and, not_lt]
    intro
    omega
  · cases hrc : s.reserve_capacity with
    | Full =>
      rw [append_reserve_full s data h hrc hc]
      simp [hrc]
    | NotFull =>
      rcases Nat.lt_or_ge (2 * N - s.active_index) data.length with hd | hd
      · rw [append_overflow s data h hrc hd]
        simp [hrc, hd]
      · rw [append_ok_swap s data h hrc hc hd]
        simp only [Except.ok.injEq, reduceCtorEq, false_iff, not_and, not_lt]
        intro
        omega

/-! Reachability machinery. -/

theorem step_wf [Inhabited T] (s : PingpongBuffer N T) (op : Op T)
    (h : s.Wf) : (step s op).Wf := by
  cases op with
  | push e => exact append_wf s [e] h
  | append d => exact append_wf s d h
  | read => exact read_wf s h
  | flush => exact flush_wf s h
  | clear => exact clear_wf s

theorem run_wf [Inhabited T] (s : PingpongBuffer N T) (ops : List (Op T))
    (h : s.Wf) : (run s ops).Wf := by
  induction ops generalizing s with
  | nil => exact h
  | cons op ops ih => exact ih _ (step_wf s op h)

/-- On an overflow from an empty active slot, the slot committed as the
new reserve is exactly the first `N` input elements. -/
theorem overflow_commits_first_slice (s : PingpongBuffer N T)
    (data : List T) (h : s.Wf)
    (hrc : s.reserve_capacity = BufferCapacity.NotFull)
    (hw0 : s.active_index = 0) (hL : 2 * N < data.length) :
    (s.append data).2.getReserve = data.take N := by
  have hL' : 2 * N - s.active_index < data.length := by omega
  rw [append_overflow s data h hrc hL']
  obtain ⟨ha, hb, hw⟩ := h
  cases s with | mk a b w ab rc =>
  dsimp only at *
  subst hw0
  have ha' : (data.take N).length = a.length := by simp [ha]; omega
  have hb' : (data.take N).length = b.length := by simp [hb]; omega
  cases ab <;>
    simp only [PingpongBuffer.getActive, PingpongBuffer.getReserve,
      PingpongBuffer.setActive, Buffer.toggle, Nat.sub_zero,
      writeAt_zero] <;>
    first
      | rw [ha', List.drop_length, List.append_nil]
      | rw [hb', List.drop_length, List.append_nil]

/-! The claims. -/

/-- C1 fails as stated: the behaviour is not independent of the buffer
state.  With `N = 1`, after `append [1]` fills the reserve, the call
`append [2,3]` (whose length 2 lies in `(N, 2N]`) returns
`Err(ReserveFull)`, not `Ok(true)`. -/
theorem claim1_counterexample :
    1 < ([2, 3] : List Nat).length ∧ ([2, 3] : List Nat).length ≤ 2 * 1 ∧
      ((((PingpongBuffer.new 1 Nat).append [1]).2).append [2, 3]).1 =
        Except.error PingpongBufferError.ReserveFull :=
  ⟨by decide, by decide, rfl⟩

/-- C1 (amended): for `len(data)` in `(N, 2N]`, called on a well-formed
state whose active slot is empty and whose reserve is not full, `append`
returns `Ok(true)` and leaves `writeIndex = len(data) - N`, with no
error. -/
theorem claim1_append_in_range (s : PingpongBuffer N T) (data : List T)
    (h : s.Wf) (hw0 : s.active_index = 0)
    (hrc : s.reserve_capacity = BufferCapacity.NotFull)
    (hlo : N < data.length) (hhi : data.length ≤ 2 * N) :
    (s.append data).1 = Except.ok BufferCapacity.Full ∧
      (s.append data).2.active_index = data.length - N := by
  rw [append_ok_swap s data h hrc (by omega) (by omega)]
  exact ⟨rfl, by simp [hw0]⟩

/-- Witness for C1 (amended) on a fresh buffer with `N = 4`. -/
theorem claim1_witness :
    ((PingpongBuffer.new 4 Nat).append [1, 2, 3, 4, 5, 6]).1 =
        Except.ok BufferCapacity.Full ∧
      ((PingpongBuffer.new 4 Nat).append [1, 2, 3, 4, 5, 6]).2.active_index
        = 2 :=
  claim1_append_in_range (PingpongBuffer.new 4 Nat) [1, 2, 3, 4, 5, 6]
    (by decide) rfl rfl (by decide) (by decide)

/-- C2 fails as stated: with `N = 1`, after `append [1]` (reserve now
full), `append [2]` must swap and returns `Err(ReserveFull)`, but the
active slot's contents changed from `[0]` to `[2]` — the step-2 copy is
committed, not rolled back. -/
theorem claim2_counterexample :
    ((((PingpongBuffer.new 1 Nat).append [1]).2).append [2]).1 =
        Except.error PingpongBufferError.ReserveFull ∧
      (((PingpongBuffer.new 1 Nat).append [1]).2).getActive = [0] ∧
      ((((PingpongBuffer.new 1 Nat).append [1]).2).append [2]).2.getActive
        = [2] ∧
      ¬((((PingpongBuffer.new 1 Nat).append [1]).2).append [2]).2.getActive
        = (((PingpongBuffer.new 1 Nat).append [1]).2).getActive :=
  ⟨rfl, rfl, rfl, by decide⟩

/-- C2 (amended): when a swap is required (the cursor reaches `N` during
the call) while the reserve is full, `append` returns `Err(ReserveFull)`;
no swap happens and the reserve slot and flag are unchanged, but the
step-2 copy into the active slot is committed and the cursor is left at
`N`. -/
theorem claim2_reserve_full_commit (s : PingpongBuffer N T) (data : List T)
    (h : s.Wf) (hrc : s.reserve_capacity = BufferCapacity.Full)
    (hL : N - s.active_index ≤ data.length) :
    (s.append data).1 = Except.error PingpongBufferError.ReserveFull ∧
      (s.append data).2.active_buffer = s.active_buffer ∧
      (s.append data).2.reserve_capacity = s.reserve_capacity ∧
      (s.append data).2.getReserve = s.getReserve ∧
      (s.append data).2.active_index = N ∧
      (s.append data).2.getActive =
        writeAt s.getActive s.active_index
          (data.take (N - s.active_index)) := by
  rw [append_reserve_full s data h hrc hL]
  cases s with | mk a b w ab rc =>
  cases ab <;>
    simp_all [PingpongBuffer.getActive, PingpongBuffer.getReserve,
      PingpongBuffer.setActive]

/-- Witness for C2 (amended): `N = 1`, reserve filled by `append [1]`,
then `append [2]`. -/
theorem claim2_witness :
    ((((PingpongBuffer.new 1 Nat).append [1]).2).append [2]).1 =
        Except.error PingpongBufferError.ReserveFull ∧
      ((((PingpongBuffer.new 1 Nat).append [1]).2).append [2]).2.active_index
        = 1 :=
  ⟨(claim2_reserve_full_commit (((PingpongBuffer.new 1 Nat).append [1]).2)
      [2] (by decide) rfl (by decide)).1,
    (claim2_reserve_full_commit (((PingpongBuffer.new 1 Nat).append [1]).2)
      [2] (by decide) rfl (by decide)).2.2.2.2.1⟩

/-- C3 fails as stated: with `N = 2` and one element already written,
`append [1,2,3,4]` fails with `Overflow`, but the committed reserve is
`[7,1]`, not the first `N` input elements `[1,2]`, and the input is not
placed up to `2N`: elements `2`, `3`, `4` are all dropped — the new
active slot stays `[0,0]` with cursor 0. -/
theorem claim3_counterexample :
    ((((PingpongBuffer.new 2 Nat).append [7]).2).append [1, 2, 3, 4]).1 =
        Except.error PingpongBufferError.Overflow ∧
      ((((PingpongBuffer.new 2 Nat).append [7]).2).append
          [1, 2, 3, 4]).2.getReserve = [7, 1] ∧
      ¬((((PingpongBuffer.new 2 Nat).append [7]).2).append
          [1, 2, 3, 4]).2.getReserve = [1, 2] ∧
      ((((PingpongBuffer.new 2 Nat).append [7]).2).append
          [1, 2, 3, 4]).2.getActive = [0, 0] ∧
      ((((PingpongBuffer.new 2 Nat).append [7]).2).append
          [1, 2, 3, 4]).2.active_index = 0 :=
  ⟨rfl, rfl, by decide, rfl, rfl⟩

/-- C3 (amended): when `append` fails with `Overflow`, the swap has
already happened: the old active slot — its prior `writeIndex` elements
followed by the next `N - writeIndex` input elements — is committed as
the new reserve, which equals the first `N` input elements exactly when
`writeIndex` was 0 at call time; nothing further of the input is placed,
the new active slot being left untouched with `writeIndex = 0`. -/
theorem claim3_overflow_state (s : PingpongBuffer N T) (data : List T)
    (h : s.Wf) (hrc : s.reserve_capacity = BufferCapacity.NotFull)
    (hL : 2 * N - s.active_index < data.length) :
    (s.append data).1 = Except.error PingpongBufferError.Overflow ∧
      (s.append data).2.reserve_capacity = BufferCapacity.Full ∧
      (s.append data).2.active_buffer = s.active_buffer.toggle ∧
      (s.append data).2.getReserve =
        writeAt s.getActive s.active_index
          (data.take (N - s.active_index)) ∧
      (s.active_index = 0 → (s.append data).2.getReserve = data.take N) ∧
      (s.append data).2.getActive = s.getReserve ∧
      (s.append data).2.active_index = 0 := by
  refine ⟨?_, ?_, ?_, ?_,
    fun hw0 => overflow_commits_first_slice s data h hrc hw0 (by omega),
    ?_, ?_⟩ <;>
    rw [append_overflow s data h hrc hL] <;>
    cases s with | mk a b w ab rc => ?_ <;>
    cases ab <;>
    simp_all [PingpongBuffer.getActive, PingpongBuffer.getReserve,
      PingpongBuffer.setActive, Buffer.toggle]

/-- Witness for C3 (amended): fresh buffer, `N = 1`, `append [5,6,7]`. -/
theorem claim3_witness :
    ((PingpongBuffer.new 1 Nat).append [5, 6, 7]).1 =
        Except.error PingpongBufferError.Overflow ∧
      ((PingpongBuffer.new 1 Nat).append [5, 6, 7]).2.getReserve = [5] ∧
      ((PingpongBuffer.new 1 Nat).append [5, 6, 7]).2.active_index = 0 :=
  ⟨(claim3_overflow_state (PingpongBuffer.new 1 Nat) [5, 6, 7]
      (by decide) rfl (by decide)).1,
    ((claim3_overflow_state (PingpongBuffer.new 1 Nat) [5, 6, 7]
      (by decide) rfl (by decide)).2.2.2.2.1 rfl),
    (claim3_overflow_state (PingpongBuffer.new 1 Nat) [5, 6, 7]
      (by decide) rfl (by decide)).2.2.2.2.2.2⟩

/-- C4 fails as stated, in both directions.  With `N = 1` and the reserve
full, `append [2,3,4]` has `len > 2N` yet returns `Err(ReserveFull)`, not
`Err(Overflow)`; with `N = 2` and one element already written,
`append [1,2,3,4]` has `len = 2N ≤ 2N` yet returns `Err(Overflow)` — so
`Overflow` does not occur exactly when `len > 2N`. -/
theorem claim4_counterexample :
    2 * 1 < ([2, 3, 4] : List Nat).length ∧
      ((((PingpongBuffer.new 1 Nat).append [1]).2).append [2, 3, 4]).1 =
        Except.error PingpongBufferError.ReserveFull ∧
      ([1, 2, 3, 4] : List Nat).length ≤ 2 * 2 ∧
      ((((PingpongBuffer.new 2 Nat).append [7]).2).append [1, 2, 3, 4]).1 =
        Except.error PingpongBufferError.Overflow :=
  ⟨by decide, rfl, by decide, rfl⟩

/-- C4 (amended): if the reserve is not full and the active slot is empty,
`append` with `len(data) > 2N` returns `Err(Overflow)` with the reserve
already set to the first `N` input elements; in general `Overflow` occurs
exactly when the reserve is not full and the input exceeds the remaining
combined capacity `2N - writeIndex`. -/
theorem claim4_overflow_characterization (s : PingpongBuffer N T)
    (data : List T) (h : s.Wf) :
    ((s.reserve_capacity = BufferCapacity.NotFull → s.active_index = 0 →
        2 * N < data.length →
        (s.append data).1 = Except.error PingpongBufferError.Overflow ∧
          (s.append data).2.getReserve = data.take N) ∧
      ((s.append data).1 = Except.error PingpongBufferError.Overflow ↔
        s.reserve_capacity = BufferCapacity.NotFull ∧
          2 * N - s.active_index < data.length)) := by
  refine ⟨fun hrc hw0 hL => ⟨?_, ?_⟩, append_overflow_iff s data h⟩
  · rw [append_overflow s data h hrc (by omega)]
  · exact overflow_commits_first_slice s data h hrc hw0 hL

/-- Witness for C4 (amended) at `N = 1`, fresh buffer, `append [5,6,7]`. -/
theorem claim4_witness :
    (((PingpongBuffer.new 1 Nat).append [5, 6, 7]).1 =
        Except.error PingpongBufferError.Overflow ∧
      ((PingpongBuffer.new 1 Nat).append [5, 6, 7]).2.getReserve = [5]) :=
  (claim4_overflow_characterization (PingpongBuffer.new 1 Nat) [5, 6, 7]
    (by decide)).1 rfl rfl (by decide)

/-- C9: appending exactly `2N` elements to a fresh buffer returns
`Ok(true)` and leaves `writeIndex = N` with the reserve full; from that
state every further `append`, even of the empty slice, returns
`Err(ReserveFull)` (until `read` drains the reserve). -/
theorem claim9_exact_double_fill [Inhabited T] (data : List T)
    (hL : data.length = 2 * N) :
    ((PingpongBuffer.new N T).append data).1 =
        Except.ok BufferCapacity.Full ∧
      ((PingpongBuffer.new N T).append data).2.active_index = N ∧
      ((PingpongBuffer.new N T).append data).2.is_reserve_full = true ∧
      ∀ data2 : List T,
        ((((PingpongBuffer.new N T).append data).2).append data2).1 =
          Except.error PingpongBufferError.ReserveFull := by
  have hwf : (PingpongBuffer.new N T).Wf := new_wf
  have h0 : (PingpongBuffer.new N T).active_index = 0 := rfl
  have hrc : (PingpongBuffer.new N T).reserve_capacity =
      BufferCapacity.NotFull := rfl
  have hchar := append_ok_swap (PingpongBuffer.new N T) data hwf hrc
    (by rw [h0]; omega) (by rw [h0]; omega)
  have hwf' := append_wf (PingpongBuffer.new N T) data hwf
  have hidx : ((PingpongBuffer.new N T).append data).2.active_index = N := by
    rw [hchar]
    show data.length - (N - (PingpongBuffer.new N T).active_index) = N
    rw [h0, hL]
    omega
  have hrc' : ((PingpongBuffer.new N T).append data).2.reserve_capacity =
      BufferCapacity.Full := by
    rw [hchar]
  refine ⟨by rw [hchar], hidx,
    by simp [PingpongBuffer.is_reserve_full, hrc'], ?_⟩
  intro data2
  rw [append_reserve_full (((PingpongBuffer.new N T).append data).2) data2
    hwf' hrc' (by rw [hidx]; omega)]

/-- Witness for C9 at `N = 2` with `data = [1,2,3,4]`, re-appending `[9]`
and `[]`. -/
theorem claim9_witness :
    (((PingpongBuffer.new 2 Nat).append [1, 2, 3, 4]).1 =
        Except.ok BufferCapacity.Full) ∧
      ((PingpongBuffer.new 2 Nat).append [1, 2, 3, 4]).2.active_index = 2 ∧
      ((((PingpongBuffer.new 2 Nat).append [1, 2, 3, 4]).2).append [9]).1 =
        Except.error PingpongBufferError.ReserveFull ∧
      ((((PingpongBuffer.new 2 Nat).append [1, 2, 3, 4]).2).append []).1 =
        Except.error PingpongBufferError.ReserveFull :=
  ⟨(claim9_exact_double_fill (N := 2) (T := Nat) [1, 2, 3, 4] rfl).1,
    (claim9_exact_double_fill (N := 2) (T := Nat) [1, 2, 3, 4] rfl).2.1,
    (claim9_exact_double_fill (N := 2) (T := Nat) [1, 2, 3, 4]
      rfl).2.2.2 [9],
    (claim9_exact_double_fill (N := 2) (T := Nat) [1, 2, 3, 4]
      rfl).2.2.2 []⟩

/-- C5: in every state reachable from the constructed state through any
sequence of `push`, `append`, `read`, `flush` and `clear` calls (calls
returning errors included), the write cursor satisfies
`0 ≤ writeIndex ≤ N`. -/
theorem claim5_write_cursor_bounded [Inhabited T] (ops : List (Op T)) :
    0 ≤ (run (PingpongBuffer.new N T) ops).active_index ∧
      (run (PingpongBuffer.new N T) ops).active_index ≤ N :=
  ⟨Nat.zero_le _, (run_wf _ ops new_wf).2.2⟩

/-- C8: on a fresh buffer with N = 4 and byte-valued elements,
`append [1,2,3,4,5,6]` returns `Ok(true)` and `position` is then 2; a
following `read` returns `some [1,2,3,4]`; a second `read` returns `none`;
a following `flush` returns `([5,6,0,0], 2)`. -/
theorem claim8_example_scenario :
    ((PingpongBuffer.new 4 Nat).append [1, 2, 3, 4, 5, 6]).1 =
        Except.ok BufferCapacity.Full
      ∧ (((PingpongBuffer.new 4 Nat).append [1, 2, 3, 4, 5, 6]).2).position
          = 2
      ∧ ((((PingpongBuffer.new 4 Nat).append [1, 2, 3, 4, 5, 6]).2).read).1
          = some [1, 2, 3, 4]
      ∧ (((((PingpongBuffer.new 4 Nat).append
            [1, 2, 3, 4, 5, 6]).2).read).2.read).1 = none
      ∧ ((((((PingpongBuffer.new 4 Nat).append
            [1, 2, 3, 4, 5, 6]).2).read).2.read).2.flush).1 =
          ([5, 6, 0, 0], 2) :=
  ⟨rfl, rfl, rfl, rfl, rfl⟩

/-- C6: `read` returns `none` and performs no mutation whenever the
reserve is not full; when the reserve is full, `read` returns exactly the
`N` elements of the reserve slot, after which the reserve is no longer
full and a second `read` with no intervening mutation returns `none`. -/
theorem claim6_read_protocol (s : PingpongBuffer N T) (h : s.Wf) :
    (s.is_reserve_full = false → s.read = (none, s)) ∧
      (s.is_reserve_full = true →
        (s.read).1 = some s.getReserve ∧
        s.getReserve.length = N ∧
        (s.read).2.is_reserve_full = false ∧
        ((s.read).2.read).1 = none) := by
  obtain ⟨ha, hb, hw⟩ := h
  cases s with | mk a b w ab rc =>
  dsimp only at *
  cases rc <;> cases ab <;>
    simp_all [PingpongBuffer.read, PingpongBuffer.is_reserve_full,
      PingpongBuffer.getReserve]

/-- Witness for C6: the full-reserve branch after filling a fresh `N = 1`
buffer, and the empty branch on the fresh buffer itself. -/
theorem claim6_witness :
    ((((PingpongBuffer.new 1 Nat).append [7]).2).read).1 = some [7] ∧
      (PingpongBuffer.new 1 Nat).read = (none, PingpongBuffer.new 1 Nat) :=
  ⟨((claim6_read_protocol ((PingpongBuffer.new 1 Nat).append [7]).2
      (by decide)).2 (by decide)).1,
    (claim6_read_protocol (PingpongBuffer.new 1 Nat) (by decide)).1
      (by decide)⟩

/-- C7: `flush` returns `(prefix, count)` with `count` equal to the cursor
at call time, the first `count` positions equal to the active slot's
written elements and the rest padded with the default value; afterwards
the cursor is 0 while the reserve slot, the reserve flag and the
active-slot selector are unchanged. -/
theorem claim7_flush_frame [Inhabited T] (s : PingpongBuffer N T)
    (h : s.Wf) :
    (s.flush).1.2 = s.active_index ∧
      (s.flush).1.1.take s.active_index = s.getActive.take s.active_index ∧
      (s.flush).1.1.drop s.active_index =
        List.replicate (N - s.active_index) (default : T) ∧
      (s.flush).1.1.length = N ∧
      (s.flush).2 = { s with active_index := 0 } := by
  obtain ⟨ha, hb, hw⟩ := h
  cases s with | mk a b w ab rc =>
  dsimp only at *
  have hla : (a.take w).length = w := by simp [ha]; omega
  have hlb : (b.take w).length = w := by simp [hb]; omega
  cases ab <;>
    (refine ⟨rfl, ?_, ?_, ?_, rfl⟩ <;>
      simp only [PingpongBuffer.flush, PingpongBuffer.getActive, writeAt,
        List.take_zero, List.nil_append, Nat.zero_add]) <;>
    first
      | (exact List.take_left' hla)
      | (exact List.take_left' hlb)
      | (rw [List.drop_left' hla, hla, List.drop_replicate])
      | (rw [List.drop_left' hlb, hlb, List.drop_replicate])
      | (simp [hla, hlb]; omega)

/-- Witness for C7 on the partially filled state from the C8 scenario. -/
theorem claim7_witness :
    ((((PingpongBuffer.new 4 Nat).append [1, 2, 3, 4, 5, 6]).2).flush).1 =
        ([5, 6, 0, 0], 2) ∧
      ((((PingpongBuffer.new 4 Nat).append [1, 2, 3, 4, 5, 6]).2).flush).2 =
        { ((PingpongBuffer.new 4 Nat).append [1, 2, 3, 4, 5, 6]).2 with
            active_index := 0 } := by
  have h := claim7_flush_frame
    ((PingpongBuffer.new 4 Nat).append [1, 2, 3, 4, 5, 6]).2 (by decide)
  exact ⟨by decide, h.2.2.2.2⟩

/-- C10: for capacity `N ≤ 1`, `is_half_full` returns true in every state
(including the fresh empty buffer), since `N / 2 = 0` under integer
division and the cursor is a natural number. -/
theorem claim10_is_half_full_trivial (s : PingpongBuffer N T) (h : N ≤ 1) :
    s.is_half_full = true := by
  simp only [PingpongBuffer.is_half_full, decide_eq_true_eq]
  omega

/-- Witness for C10 at `N = 1` on the fresh buffer. -/
theorem claim10_witness :
    1 ≤ 1 ∧ (PingpongBuffer.new 1 Nat).is_half_full = true :=
  ⟨by decide,
    claim10_is_half_full_trivial (PingpongBuffer.new 1 Nat) (by decide)⟩

end Pingpong
